import Mathlib

/-!
Verification of the portfolio construction and optimization engine:
a shallow embedding of `src/index/index_builder.py` and
`src/portfolio/portfolio_optimizer.py` over exact rational arithmetic,
together with proofs of the behavioural claims about them.

Conventions of the embedding:
* pandas DataFrames of the return panel become lists of records plus an
  explicit column-name list (column-presence checks are real in the source);
* Python exceptions become an `Except PyError` result;
* floating point numbers become `ℚ`; the IEEE special values that the
  optimizer deliberately lets propagate are made explicit in the `NFloat`
  type (finite / +inf / -inf / NaN);
* `np.sqrt` on nonnegative reals is kept abstract as a parameter
  `sqrt : ℚ → ℚ`; theorems assume only the facts about it they need.
-/

namespace Engine

/-- Errors raised by the embedded Python code. -/
inductive PyError where
  | valueErr : String → PyError
  | attributeErr : String → PyError
  | unboundLocalErr : String → PyError
deriving DecidableEq, Repr

/-! ### Generic list helpers (pandas primitives) -/

/-- Running cumulative product with accumulator, as in `Series.cumprod`. -/
def cumprodAux (acc : ℚ) : List ℚ → List ℚ
  | [] => []
  | x :: xs => (acc * x) :: cumprodAux (acc * x) xs

/-- `Series.cumprod`. -/
def cumprod (l : List ℚ) : List ℚ := cumprodAux 1 l

/-- `Series.mean` (the callers below never take the mean of an empty group). -/
def listMean (l : List ℚ) : ℚ := l.sum / l.length

/-- Sorted list of the distinct values of a column, as produced by
`groupby` keys and by the `pivot` axes. -/
def uniqueSorted [LinearOrder α] (l : List α) : List α :=
  List.insertionSort (· ≤ ·) l.dedup

theorem cumprodAux_length (acc : ℚ) (l : List ℚ) :
    (cumprodAux acc l).length = l.length := by
  induction l generalizing acc with
  | nil => rfl
  | cons x xs ih => simp [cumprodAux, ih]

theorem cumprod_length (l : List ℚ) : (cumprod l).length = l.length :=
  cumprodAux_length 1 l

theorem cumprodAux_getD_zero (acc : ℚ) (l : List ℚ) (h : 0 < l.length) :
    (cumprodAux acc l).getD 0 0 = acc * l.getD 0 0 := by
  cases l with
  | nil => simp at h
  | cons x xs => simp [cumprodAux]

theorem cumprodAux_getD_succ (acc : ℚ) (l : List ℚ) (i : ℕ) (h : i + 1 < l.length) :
    (cumprodAux acc l).getD (i + 1) 0 =
      (cumprodAux acc l).getD i 0 * l.getD (i + 1) 0 := by
  induction l generalizing acc i with
  | nil => simp at h
  | cons x xs ih =>
    cases i with
    | zero =>
      cases xs with
      | nil => simp at h
      | cons y ys => simp [cumprodAux, mul_assoc]
    | succ j =>
      have hj : j + 1 < xs.length := by simpa using h
      simpa [cumprodAux] using ih (acc * x) j hj

theorem mem_uniqueSorted [LinearOrder α] (l : List α) (a : α) :
    a ∈ uniqueSorted l ↔ a ∈ l := by
  unfold uniqueSorted
  rw [(List.perm_insertionSort (· ≤ ·) l.dedup).mem_iff]
  exact List.mem_dedup

theorem sorted_uniqueSorted [LinearOrder α] (l : List α) :
    List.Sorted (· ≤ ·) (uniqueSorted l) :=
  List.sorted_insertionSort (· ≤ ·) l.dedup

theorem uniqueSorted_ne_nil [LinearOrder α] {l : List α} (h : l ≠ []) :
    uniqueSorted l ≠ [] := by
  cases hl : l with
  | nil => exact absurd hl h
  | cons x xs =>
    intro hs
    have hx : x ∈ uniqueSorted l := (mem_uniqueSorted l x).mpr (by simp [hl])
    rw [hl, hs] at hx
    simp at hx

/-- Dividing every element of a list by a constant divides the sum. -/
theorem sum_map_div (l : List ℚ) (c : ℚ) :
    (l.map (fun x => x / c)).sum = l.sum / c := by
  induction l with
  | nil => simp
  | cons x xs ih => simp [ih, add_div]

/-! ### The return panel (output of the DataProcessor collaborator) -/

/-- One row of the processed OHLCV table:
(Date, Symbol, Return, Close, Close_normalized). -/
structure PanelRow where
  date : ℕ
  symbol : String
  ret : ℚ
  close : ℚ
  closeNorm : ℚ
deriving DecidableEq, Repr

/-- A DataFrame view of the return panel: the set of column names present
plus the data rows (field values are meaningful only when the corresponding
column is present; the builders check presence before use). -/
structure ReturnPanel where
  cols : List String
  rows : List PanelRow
deriving DecidableEq, Repr

/-- One row of the shares-outstanding table. -/
structure SharesRow where
  symbol : String
  sharesOutstanding : ℚ
deriving DecidableEq, Repr

/-- The optional shares-outstanding DataFrame. -/
abbrev SharesTable := List SharesRow

/-! ### IndexBuilder -/

/-- `IndexBuilder` object state.  `sharesAttr = none` means the Python
attribute `shares_outstanding_data` was never assigned (the constructor
assigns it only inside `if shares_outstanding_data is not None`);
`sharesAttr = some v` means the attribute exists and holds `v`. -/
structure IndexBuilder where
  data : ReturnPanel
  sharesAttr : Option (Option SharesTable)
deriving DecidableEq

/-- `IndexBuilder.__init__`: copies the input and assigns the
`shares_outstanding_data` attribute only when the argument is not `None`. -/
def IndexBuilder.init (input : ReturnPanel) (shares : Option SharesTable) :
    IndexBuilder :=
  { data := input, sharesAttr := shares.map some }

/-- Keys of `groupby("Date")` — sorted distinct dates. -/
def groupDates (rows : List PanelRow) : List ℕ :=
  uniqueSorted (rows.map (·.date))

/-- The `Return` values of the group of rows at one date. -/
def returnsAt (rows : List PanelRow) (d : ℕ) : List ℚ :=
  (rows.filter (fun r => r.date == d)).map (·.ret)

/-- `build_equal_weighted_index`: checks the `Return` column, then
`groupby("Date")["Return"].mean().add(1).cumprod().mul(base_value)`. -/
def build_equal_weighted_index (b : IndexBuilder) (base_value : ℚ) :
    Except PyError (List (ℕ × ℚ)) :=
  if "Return" ∈ b.data.cols then
    let ds := groupDates b.data.rows
    .ok (ds.zip
      ((cumprod (ds.map (fun d => 1 + listMean (returnsAt b.data.rows d)))).map
        (· * base_value)))
  else
    .error (.valueErr
      "Input data must contain Return column. Please run DataProcessor first.")

/-- `build_price_weighted_index`: checks the `Close_normalized` column, then
`groupby("Date")["Close_normalized"].sum().div(nunique("Symbol"))`. -/
def build_price_weighted_index (b : IndexBuilder) :
    Except PyError (List (ℕ × ℚ)) :=
  if "Close_normalized" ∈ b.data.cols then
    let ds := groupDates b.data.rows
    let nSym : ℚ := ((b.data.rows.map (·.symbol)).dedup).length
    .ok (ds.map (fun d =>
      (d, ((b.data.rows.filter (fun r => r.date == d)).map (·.closeNorm)).sum / nSym)))
  else
    .error (.valueErr
      "Input data must contain Close_normalized column. Please run DataProcessor first.")

/-- Left-merge lookup of a symbol in the shares-outstanding table
(`pd.merge(..., how="left")`: a missing symbol yields NaN, i.e. `none`). -/
def lookupShares (tbl : SharesTable) (s : String) : Option ℚ :=
  (tbl.find? (fun r => r.symbol == s)).map (·.sharesOutstanding)

/-- `build_value_weighted_index`.  Reading the `shares_outstanding_data`
attribute raises `AttributeError` when the constructor never assigned it;
the `is None` check would raise `ValueError` (that branch is reachable only
if the attribute exists and holds `None`).  Otherwise: daily market caps,
date-level cap shares as dynamic weights, and a compounded weighted return,
with NaN-skipping date sums as in pandas. -/
def build_value_weighted_index (b : IndexBuilder) (base_value : ℚ) :
    Except PyError (List (ℕ × ℚ)) :=
  match b.sharesAttr with
  | none =>
      .error (.attributeErr
        "IndexBuilder object has no attribute shares_outstanding_data")
  | some none =>
      .error (.valueErr
        "Shares outstanding data must be provided for value-weighted index.")
  | some (some tbl) =>
      let rows := b.data.rows
      let cap : PanelRow → Option ℚ := fun r =>
        (lookupShares tbl r.symbol).map (fun s => r.close * s)
      let totalCap : ℕ → ℚ := fun d =>
        ((rows.filter (fun r => r.date == d)).filterMap cap).sum
      let wret : PanelRow → Option ℚ := fun r =>
        (cap r).map (fun c => r.ret * (c / totalCap r.date))
      let ds := groupDates rows
      .ok (ds.zip
        ((cumprod (ds.map (fun d =>
          1 + ((rows.filter (fun r => r.date == d)).filterMap wret).sum))).map
          (· * base_value)))

/-! ### Risk-parity builder -/

/-- `DataFrame.pivot(index="Date", columns="Symbol", values="Return")` axes:
sorted distinct dates. -/
def pivotDates (rows : List PanelRow) : List ℕ :=
  uniqueSorted (rows.map (·.date))

/-- Pivot columns: sorted distinct symbols. -/
def pivotSymbols (rows : List PanelRow) : List String :=
  uniqueSorted (rows.map (·.symbol))

/-- One cell of the pivoted returns table; a (date, symbol) pair with no row
is NaN (`none`).  (`pivot` itself raises on duplicate pairs; callers carry a
no-duplicates hypothesis.) -/
def pivotCell (rows : List PanelRow) (d : ℕ) (s : String) : Option ℚ :=
  (rows.find? (fun r => r.date == d && r.symbol == s)).map (·.ret)

/-- The pivoted date × symbol returns matrix. -/
def pivotMatrix (rows : List PanelRow) : List (List (Option ℚ)) :=
  (pivotDates rows).map (fun d => (pivotSymbols rows).map (fun s => pivotCell rows d s))

/-- Column `j` of the pivoted matrix. -/
def matrixCol (M : List (List (Option ℚ))) (j : ℕ) : List (Option ℚ) :=
  M.map (fun row => row.getD j none)

/-- The values inside the trailing rolling window ending at row `t`
(window size `window`), NaNs excluded — this is the sample the rolling
standard deviation is taken over. -/
def windowVals (col : List (Option ℚ)) (window t : ℕ) : List ℚ :=
  ((col.take (t + 1)).drop (t + 1 - window)).filterMap id

/-- Sample variance (`ddof=1`), defined for two or more observations. -/
def sampleVar (xs : List ℚ) : ℚ :=
  let m := listMean xs
  (xs.map (fun x => (x - m) ^ 2)).sum / ((xs.length : ℚ) - 1)

/-- `rolling(window, min_periods=1).std().fillna(0)` at row `t`: the sample
standard deviation of the window when it holds at least two observations,
and `0` otherwise (the std of zero or one observations is NaN, filled
with 0). -/
def rollingVol (sqrt : ℚ → ℚ) (col : List (Option ℚ)) (window t : ℕ) : ℚ :=
  let xs := windowVals col window t
  if 2 ≤ xs.length then sqrt (sampleVar xs) else 0

/-- `1 / volatility` with `replace([inf, -inf], nan)` then `fillna(0)`:
a zero (originally NaN) volatility yields inverse volatility 0. -/
def invVol (sqrt : ℚ → ℚ) (col : List (Option ℚ)) (window t : ℕ) : ℚ :=
  let v := rollingVol sqrt col window t
  if v = 0 then 0 else 1 / v

/-- The row of per-asset inverse volatilities at date index `t`. -/
def invVolRow (sqrt : ℚ → ℚ) (M : List (List (Option ℚ))) (window t : ℕ) :
    List ℚ :=
  (List.range (M.headD []).length).map (fun j => invVol sqrt (matrixCol M j) window t)

/-- `weights = inverse_volatility.div(sum_inverse_volatility, axis=0)` with
`fillna(0)`: when the date's inverse volatilities sum to zero the division
is 0/0 (NaN) cell-wise and the fill makes the whole row 0.  (With a real
square root the inverse volatilities are nonnegative, so a zero sum forces
every cell to be zero.) -/
def weightRow (sqrt : ℚ → ℚ) (M : List (List (Option ℚ))) (window t : ℕ) :
    List ℚ :=
  let inv := invVolRow sqrt M window t
  let s := inv.sum
  inv.map (fun x => if s = 0 then 0 else x / s)

/-- `(returns_df * weights).sum(axis=1)` at date index `t`: NaN returns are
skipped by the row sum. -/
def riskParityWeightedReturn (sqrt : ℚ → ℚ) (M : List (List (Option ℚ)))
    (window t : ℕ) : ℚ :=
  let w := weightRow sqrt M window t
  (((M.getD t []).zip w).filterMap (fun p => p.1.map (fun r => r * p.2))).sum

/-- `build_risk_parity_index`: pivot (raising on duplicate (Date, Symbol)
pairs), rolling inverse-volatility weights, then the compounded weighted
return scaled by the base value. -/
def build_risk_parity_index (b : IndexBuilder) (sqrt : ℚ → ℚ)
    (base_value : ℚ) (rolling_window : ℕ) : Except PyError (List (ℕ × ℚ)) :=
  if (b.data.rows.map (fun r => (r.date, r.symbol))).Nodup then
    let M := pivotMatrix b.data.rows
    let ds := pivotDates b.data.rows
    .ok (ds.zip
      ((cumprod ((List.range ds.length).map (fun t =>
        1 + riskParityWeightedReturn sqrt M rolling_window t))).map
        (· * base_value)))
  else
    .error (.valueErr "Index contains duplicate entries, cannot reshape")

/-- The `build_index` error message for an unrecognized scheme name
(quotation marks of the source message omitted). -/
def invalidIndexTypeMsg : String :=
  "Invalid index type. Choose equal, price, value, or risk_parity."

/-- `build_index`: dispatch on the weighting-scheme name, raising a
`ValueError` naming the four valid schemes for anything else. -/
def build_index (b : IndexBuilder) (sqrt : ℚ → ℚ) (type : String)
    (base_value : ℚ) (rolling_window : ℕ) : Except PyError (List (ℕ × ℚ)) :=
  if type = "equal" then build_equal_weighted_index b base_value
  else if type = "price" then build_price_weighted_index b
  else if type = "value" then build_value_weighted_index b base_value
  else if type = "risk_parity" then
    build_risk_parity_index b sqrt base_value rolling_window
  else .error (.valueErr invalidIndexTypeMsg)

/-- `needle` occurs as a contiguous substring of `hay` (used to state that
an error message lists an option name). -/
def occursIn (needle hay : String) : Bool :=
  hay.toList.tails.any (fun t => needle.toList.isPrefixOf t)

/-! ### Portfolio optimizer -/

/-- An IEEE-style numeric value: the optimizer deliberately lets division
by a zero volatility produce ±∞ / NaN instead of raising. -/
inductive NFloat where
  | finite : ℚ → NFloat
  | posInf : NFloat
  | negInf : NFloat
  | nan : NFloat
deriving DecidableEq, Repr

/-- Subtraction of a finite constant (`port_returns - risk_free_rate`). -/
def NFloat.subQ : NFloat → ℚ → NFloat
  | .finite a, r => .finite (a - r)
  | x, _ => x

/-- IEEE division, with the zero-denominator sign rules the Sharpe-ratio
computation relies on: `x / 0` is `+∞`, `-∞` or NaN according to the sign
of `x`. -/
def NFloat.div : NFloat → NFloat → NFloat
  | .nan, _ => .nan
  | _, .nan => .nan
  | .finite a, .finite b =>
      if b ≠ 0 then .finite (a / b)
      else if 0 < a then .posInf
      else if a < 0 then .negInf
      else .nan
  | .finite _, .posInf => .finite 0
  | .finite _, .negInf => .finite 0
  | .posInf, .finite b => if b < 0 then .negInf else .posInf
  | .negInf, .finite b => if b < 0 then .posInf else .negInf
  | .posInf, .posInf => .nan
  | .posInf, .negInf => .nan
  | .negInf, .posInf => .nan
  | .negInf, .negInf => .nan

/-- Natural power (`** 252` of the geometric branch). -/
def NFloat.powN : NFloat → ℕ → NFloat
  | .finite a, n => .finite (a ^ n)
  | x, 0 => match x with
            | .nan => .nan
            | _ => .finite 1
  | .posInf, _ + 1 => .posInf
  | .negInf, n + 1 => if (n + 1) % 2 = 0 then .posInf else .negInf
  | .nan, _ + 1 => .nan

/-- NaN-propagating option of a rational, as produced by numpy reductions
over data containing NaN. -/
def toNF : Option ℚ → NFloat
  | none => .nan
  | some q => .finite q

/-- `np.dot` of a weight vector with a possibly-NaN vector: one NaN entry
poisons the whole sum (NaN·0 is still NaN). -/
def dotOpt (w : List ℚ) (v : List (Option ℚ)) : Option ℚ :=
  (v.zip w).foldr (fun p acc => acc.bind (fun s => p.1.map (fun x => x * p.2 + s)))
    (some 0)

/-- NaN-propagating product (`np.prod` over an axis). -/
def prodOpt (l : List (Option ℚ)) : Option ℚ :=
  l.foldr (fun x acc => acc.bind (fun s => x.map (· * s))) (some 1)

/-- The quadratic form `wᵀ · Σ · w` over a possibly-NaN covariance matrix. -/
def quadForm (cov : List (List (Option ℚ))) (w : List ℚ) : Option ℚ :=
  (cov.zip w).foldr
    (fun p acc => acc.bind (fun s => (dotOpt w p.1).map (fun x => x * p.2 + s)))
    (some 0)

/-- `np.sqrt` lifted to NaN inputs: NaN (and negative arguments) give NaN. -/
def npSqrt (sqrt : ℚ → ℚ) : Option ℚ → NFloat
  | none => .nan
  | some q => if q < 0 then .nan else .finite (sqrt q)

/-- `pivot_table(index="Date", columns="Symbol", values="Return")` cell:
duplicates are aggregated by mean, an empty group is NaN. -/
def pivotTableCell (rows : List PanelRow) (d : ℕ) (s : String) : Option ℚ :=
  let xs := (rows.filter (fun r => r.date == d && r.symbol == s)).map (·.ret)
  if xs.length = 0 then none else some (listMean xs)

/-- The pivoted date × symbol returns matrix of the optimizer. -/
def pivotTable (rows : List PanelRow) : List (List (Option ℚ)) :=
  (pivotDates rows).map (fun d =>
    (pivotSymbols rows).map (fun s => pivotTableCell rows d s))

/-- Column mean skipping NaN (`DataFrame.mean`); all-NaN gives NaN. -/
def colMean (col : List (Option ℚ)) : Option ℚ :=
  let xs := col.filterMap id
  if xs.length = 0 then none else some (listMean xs)

/-- Pairwise sample covariance of two columns over their common non-NaN
rows (`DataFrame.cov`, `ddof=1`); fewer than two common observations give
NaN. -/
def colCov (c1 c2 : List (Option ℚ)) : Option ℚ :=
  let pairs := (c1.zip c2).filterMap
    (fun p => p.1.bind (fun a => p.2.map (fun b => (a, b))))
  if 2 ≤ pairs.length then
    let mx := listMean (pairs.map (·.1))
    let my := listMean (pairs.map (·.2))
    some (((pairs.map (fun p => (p.1 - mx) * (p.2 - my))).sum) /
      ((pairs.length : ℚ) - 1))
  else none

/-- The state of the global numpy random generator.  `np.random.seed`
replaces it by a deterministic function of the seed alone; drawing is a
deterministic function of the state. -/
structure GlobalRNG where
  state : ℕ
deriving DecidableEq, Repr

/-- `np.random.seed`: the resulting generator state depends only on the
seed, not on the previous state. -/
def npRandomSeed (seed : ℕ) : GlobalRNG := ⟨seed⟩

/-- `np.random.rand(n, m)` abstracted: any deterministic draw function
from the generator state to an n × m matrix and a successor state. -/
structure RandModel where
  rand : GlobalRNG → ℕ → ℕ → List (List ℚ) × GlobalRNG

/-- `PortfolioOptimizer` object state. -/
structure PortfolioOptimizer where
  data : ReturnPanel
  risk_free_rate : ℚ
  iterations : ℕ
  returns : List (List (Option ℚ))
  symbols : List String
  n_assets : ℕ
  mean_returns : List (Option ℚ)
  cov_matrix : List (List (Option ℚ))
deriving DecidableEq

/-- The pure field computations of `PortfolioOptimizer.__init__`: pivot the
panel, take column means, and annualize the covariance matrix by 252. -/
def PortfolioOptimizer.init (input : ReturnPanel) (rf : ℚ) (iterations : ℕ) :
    PortfolioOptimizer :=
  let rets := pivotTable input.rows
  let syms := pivotSymbols input.rows
  { data := input
    risk_free_rate := rf
    iterations := iterations
    returns := rets
    symbols := syms
    n_assets := syms.length
    mean_returns := (List.range syms.length).map (fun j => colMean (matrixCol rets j))
    cov_matrix := (List.range syms.length).map (fun j =>
      (List.range syms.length).map (fun k =>
        (colCov (matrixCol rets j) (matrixCol rets k)).map (· * 252))) }

/-- `PortfolioOptimizer.__init__` including its side effect: it re-seeds
the process-wide random generator, discarding whatever state it held. -/
def PortfolioOptimizer.construct (input : ReturnPanel) (rf : ℚ)
    (iterations seed : ℕ) (_g : GlobalRNG) : PortfolioOptimizer × GlobalRNG :=
  (PortfolioOptimizer.init input rf iterations, npRandomSeed seed)

/-- Row-normalization of the drawn matrix:
`weights_matrix / np.sum(weights_matrix, axis=1, keepdims=True)`.
(An all-zero row is 0/0 cell-wise — NaN in numpy, `0` in this exact
embedding; either way such a row does not sum to 1.) -/
def normalizeRows (D : List (List ℚ)) : List (List ℚ) :=
  D.map (fun row => row.map (fun x => x / row.sum))

/-- `_generate_random_weights_matrix`: draw `iterations × n_assets`
uniforms from the global generator and row-normalize. -/
def generateRandomWeightsMatrix (rm : RandModel) (opt : PortfolioOptimizer)
    (g : GlobalRNG) : List (List ℚ) × GlobalRNG :=
  let p := rm.rand g opt.iterations opt.n_assets
  (normalizeRows p.1, p.2)

/-- One row of the metrics DataFrame (Return, Volatility, Sharpe Ratio). -/
structure MetricsRow where
  ret : NFloat
  volatility : NFloat
  sharpe : NFloat
deriving DecidableEq, Repr

/-- The geometric branch of `_calculate_portfolio_metrics`:
`np.prod(1 + np.dot(W, returns), axis=1) ** 252 - 1`.  `np.dot` requires
the inner dimensions to agree (number of assets = number of dates),
otherwise it raises. -/
def geomReturns (opt : PortfolioOptimizer) (W : List (List ℚ)) :
    Except PyError (List NFloat) :=
  if opt.returns.length = opt.n_assets then
    .ok (W.map (fun w =>
      (((toNF (prodOpt ((List.range opt.symbols.length).map (fun j =>
        (dotOpt w (matrixCol opt.returns j)).map (1 + ·))))).powN 252).subQ 1)))
  else .error (.valueErr "shapes not aligned")

/-- `_calculate_portfolio_metrics`.  An unrecognized `return_method` leaves
the local `port_returns` unassigned, so the later reference to it raises
`UnboundLocalError` — no option-listing `ValueError` exists on this path.
Mismatched weight-vector lengths raise numpy shape errors first. -/
def calculatePortfolioMetrics (opt : PortfolioOptimizer) (sqrt : ℚ → ℚ)
    (W : List (List ℚ)) (return_method : String) :
    Except PyError (List MetricsRow) :=
  if W.all (fun w => w.length == opt.n_assets) then
    let rets? : Option (Except PyError (List NFloat)) :=
      if return_method = "arithmetic" then
        some (.ok (W.map (fun w => toNF ((dotOpt w opt.mean_returns).map (· * 252)))))
      else if return_method = "geometric" then some (geomReturns opt W)
      else none
    match rets? with
    | none =>
        .error (.unboundLocalErr
          "local variable port_returns referenced before assignment")
    | some r =>
        r.map (fun rets =>
          (rets.zip W).map (fun p =>
            let vol := npSqrt sqrt (quadForm opt.cov_matrix p.2)
            { ret := p.1
              volatility := vol
              sharpe := NFloat.div (p.1.subQ opt.risk_free_rate) vol }))
  else .error (.valueErr "shapes of weights and covariance are not aligned")

/-- Strict order used by `idxmax` / `idxmin` on a float column: NaN never
wins a comparison (pandas skips NaN entries). -/
def NFloat.gtB : NFloat → NFloat → Bool
  | .nan, _ => false
  | _, .nan => false
  | .posInf, .posInf => false
  | .posInf, _ => true
  | .finite _, .posInf => false
  | .negInf, .posInf => false
  | .finite a, .finite b => b < a
  | .finite _, .negInf => true
  | .negInf, .finite _ => false
  | .negInf, .negInf => false

/-- `idxmax` over a float-valued key: index of the first occurrence of the
largest non-NaN key. -/
def idxmaxBy (f : α → NFloat) (l : List α) : Option ℕ :=
  (l.enum.foldl (fun (best : Option (ℕ × α)) p =>
    match best with
    | none => if f p.2 = NFloat.nan then none else some p
    | some b => if NFloat.gtB (f p.2) (f b.2) then some p else some b) none).map
    (·.1)

/-- `idxmin` over a float-valued key: index of the first occurrence of the
smallest non-NaN key. -/
def idxminBy (f : α → NFloat) (l : List α) : Option ℕ :=
  (l.enum.foldl (fun (best : Option (ℕ × α)) p =>
    match best with
    | none => if f p.2 = NFloat.nan then none else some p
    | some b => if NFloat.gtB (f b.2) (f p.2) then some p else some b) none).map
    (·.1)

/-- The value returned by `monte_carlo_optimization`: the results
DataFrame (metrics plus the `Weight_<symbol>` columns, one record per
simulated portfolio) and the max-Sharpe and min-volatility rows. -/
structure MCResult where
  results : List (MetricsRow × List ℚ)
  maxSharpe : Option (MetricsRow × List ℚ)
  minVol : Option (MetricsRow × List ℚ)
deriving DecidableEq

/-- `monte_carlo_optimization`: draw the random weights from the global
generator, compute the metrics cloud, and select the max-Sharpe and
min-volatility records. -/
def monteCarloOptimization (rm : RandModel) (opt : PortfolioOptimizer)
    (sqrt : ℚ → ℚ) (g : GlobalRNG) :
    Except PyError MCResult × GlobalRNG :=
  let p := generateRandomWeightsMatrix rm opt g
  match calculatePortfolioMetrics opt sqrt p.1 "arithmetic" with
  | .error e => (.error e, p.2)
  | .ok rows =>
      let results := rows.zip p.1
      ((.ok
        { results := results
          maxSharpe := (idxmaxBy (fun r => r.1.sharpe) results).bind
            (fun i => results[i]?)
          minVol := (idxminBy (fun r => r.1.volatility) results).bind
            (fun i => results[i]?) }), p.2)

/-- The outcome of one `scipy.optimize.minimize` call (SLSQP, weights
summing to 1, the weighted mean return pinned to the target, each weight in
[0, 1]): a convergence flag and the minimized volatility `result.fun`.
The solver is external library code, kept abstract as a function of the
target return. -/
structure SolverResult where
  success : Bool
  fn : ℚ
deriving DecidableEq, Repr

/-- `np.linspace a b n`: `n` evenly spaced points from `a` to `b`
inclusive. -/
def linspace (a b : ℚ) (n : ℕ) : List ℚ :=
  if n = 0 then []
  else if n = 1 then [a]
  else (List.range n).map (fun (i : ℕ) => a + (b - a) * (i : ℚ) / ((n : ℚ) - 1))

/-- `calculate_efficient_frontier`: evaluate the solver at `n_points`
targets spanning the min and max return of the Monte Carlo cloud and keep
`{"Return": target, "Volatility": result.fun}` only for the targets where
`result.success` holds. -/
def calculateEfficientFrontier (solver : ℚ → SolverResult)
    (returnsCol : List ℚ) (n_points : ℕ) : List (ℚ × ℚ) :=
  let minR := (returnsCol.min?).getD 0
  let maxR := (returnsCol.max?).getD 0
  let targets := linspace minR maxR n_points
  targets.foldl (fun acc t =>
    if (solver t).success then acc ++ [(t, (solver t).fn)] else acc) []

/-! ### Concrete sample data used by the witnesses -/

/-- A small processed return panel with two symbols and two dates. -/
def samplePanel : ReturnPanel :=
  { cols := ["Date", "Symbol", "Return", "Close", "Close_normalized"]
    rows := [⟨0, "A", 1/100, 10, 1⟩, ⟨1, "A", 2/100, 51/5, 51/50⟩,
             ⟨0, "B", 1/50, 20, 1⟩, ⟨1, "B", 0, 20, 1⟩] }

/-- A one-symbol panel with a constant return (zero sample variance). -/
def flatPanel : ReturnPanel :=
  { cols := ["Date", "Symbol", "Return", "Close", "Close_normalized"]
    rows := [⟨0, "A", 1/100, 10, 1⟩, ⟨1, "A", 1/100, 101/10, 101/100⟩] }

/-- An optimizer built from the flat panel (its 1×1 annualized covariance
matrix is exactly zero). -/
def flatOptimizer : PortfolioOptimizer := PortfolioOptimizer.init flatPanel (1/25) 10

end Engine

namespace Engine

/-! ### Claim theorems -/

/-- C1: constructing `IndexBuilder` without a shares-outstanding table and
then calling `build_value_weighted_index` raises `AttributeError` — the
attribute `shares_outstanding_data` is assigned only inside
`if shares_outstanding_data is not None`, so the documented `ValueError`
branch is unreachable.  This contradicts the method's own docstring
("Raises ValueError: If shares outstanding data is not provided") and the
spec's precondition-error contract. -/
theorem C1_missing_shares_raises_attribute_error
    (input : ReturnPanel) (base_value : ℚ) :
    build_value_weighted_index (IndexBuilder.init input none) base_value
        = .error (.attributeErr
          "IndexBuilder object has no attribute shares_outstanding_data") ∧
      ∀ m, build_value_weighted_index (IndexBuilder.init input none) base_value
        ≠ .error (.valueErr m) := by
  refine ⟨rfl, ?_⟩
  intro m h
  rw [show build_value_weighted_index (IndexBuilder.init input none) base_value
      = Except.error (PyError.attributeErr
        "IndexBuilder object has no attribute shares_outstanding_data") from rfl] at h
  simp at h

/-- C1 witness: the failure evaluated on the concrete sample panel. -/
theorem C1_missing_shares_witness :
    build_value_weighted_index (IndexBuilder.init samplePanel none) 1
      = .error (.attributeErr
        "IndexBuilder object has no attribute shares_outstanding_data") :=
  (C1_missing_shares_raises_attribute_error samplePanel 1).1

/-- C3: `_calculate_portfolio_metrics` with an unrecognized
return-aggregation method raises `UnboundLocalError` (the local
`port_returns` is only assigned inside the two recognized branches), not an
unknown-option `ValueError` listing the valid options — contradicting the
spec's unknown-option error contract. -/
theorem C3_unknown_return_method_unbound_local
    (opt : PortfolioOptimizer) (sqrt : ℚ → ℚ) (W : List (List ℚ))
    (method : String)
    (hshape : W.all (fun w => w.length == opt.n_assets) = true)
    (h1 : method ≠ "arithmetic") (h2 : method ≠ "geometric") :
    calculatePortfolioMetrics opt sqrt W method
        = .error (.unboundLocalErr
          "local variable port_returns referenced before assignment") ∧
      ∀ m, calculatePortfolioMetrics opt sqrt W method
        ≠ .error (.valueErr m) := by
  have heq : calculatePortfolioMetrics opt sqrt W method
      = .error (.unboundLocalErr
        "local variable port_returns referenced before assignment") := by
    simp [calculatePortfolioMetrics, hshape, h1, h2]
  refine ⟨heq, ?_⟩
  intro m h
  rw [heq] at h
  simp at h

/-- C3 witness: concrete optimizer state, weights and the method name
"harmonic". -/
theorem C3_unknown_return_method_witness :
    calculatePortfolioMetrics flatOptimizer id [[1]] "harmonic"
      = .error (.unboundLocalErr
        "local variable port_returns referenced before assignment") :=
  (C3_unknown_return_method_unbound_local flatOptimizer id [[1]] "harmonic"
    (by norm_num [flatOptimizer, PortfolioOptimizer.init, pivotSymbols, flatPanel,
      uniqueSorted])
    (by decide) (by decide)).1

/-- C4: `build_index` with a scheme name outside the four recognized ones
returns the unknown-option `ValueError` whose message names all four valid
schemes, and produces no index output. -/
theorem C4_build_index_unknown_scheme
    (b : IndexBuilder) (sqrt : ℚ → ℚ) (type : String) (base_value : ℚ)
    (rolling_window : ℕ)
    (h : type ∉ (["equal", "price", "value", "risk_parity"] : List String)) :
    build_index b sqrt type base_value rolling_window
        = .error (.valueErr invalidIndexTypeMsg) ∧
      occursIn "equal" invalidIndexTypeMsg = true ∧
      occursIn "price" invalidIndexTypeMsg = true ∧
      occursIn "value" invalidIndexTypeMsg = true ∧
      occursIn "risk_parity" invalidIndexTypeMsg = true := by
  simp only [List.mem_cons, List.not_mem_nil, or_false] at h
  push_neg at h
  obtain ⟨h1, h2, h3, h4⟩ := h
  exact ⟨by simp [build_index, h1, h2, h3, h4], by decide, by decide, by decide,
    by decide⟩

/-- C4 witness: the scheme name "momentum" on the concrete sample builder. -/
theorem C4_build_index_unknown_scheme_witness :
    build_index (IndexBuilder.init samplePanel none) id "momentum" 1 252
      = .error (.valueErr invalidIndexTypeMsg) :=
  (C4_build_index_unknown_scheme (IndexBuilder.init samplePanel none) id
    "momentum" 1 252 (by decide)).1

/-- C6 counterexample: the all-zero draw row `[0, 0]` consists of values
`np.random.rand` can produce (each in [0, 1)), yet its normalized row does
not sum to 1 — the normalization is 0/0 cell-wise (a NaN row in numpy,
zeros in this exact embedding), so the claim fails on this sampler
output. -/
theorem C6_zero_draw_row_counterexample :
    (0:ℚ) ≤ 0 ∧ (0:ℚ) < 1 ∧
      ((normalizeRows [[(0:ℚ), 0]]).headD []).sum ≠ 1 := by
  norm_num [normalizeRows]

/-- C6 (amended): every row of the normalized matrix whose draws are
nonnegative with at least one positive entry has all entries ≥ 0 and sums
to exactly 1 (stronger than the claimed 1e-9 tolerance); the amendment
excludes only the all-zero draw row, where the row-normalization divides
by zero. -/
theorem C6_normalized_rows_sum_one
    (D : List (List ℚ))
    (hD : ∀ row ∈ D, (∀ x ∈ row, 0 ≤ x) ∧ ∃ x ∈ row, 0 < x) :
    ∀ row ∈ normalizeRows D, (∀ x ∈ row, 0 ≤ x) ∧ row.sum = 1 := by
  intro row hrow
  simp only [normalizeRows, List.mem_map] at hrow
  obtain ⟨orig, horig, rfl⟩ := hrow
  obtain ⟨hnn, x, hx, hxpos⟩ := hD orig horig
  have hsum : 0 < orig.sum := lt_of_lt_of_le hxpos (List.single_le_sum hnn x hx)
  constructor
  · intro y hy
    simp only [List.mem_map] at hy
    obtain ⟨z, hz, rfl⟩ := hy
    exact div_nonneg (hnn z hz) hsum.le
  · rw [sum_map_div]
    exact div_self hsum.ne'

/-- C6 witness: the amended property evaluated on the one-row draw matrix
`[[2]]`. -/
theorem C6_normalized_rows_sum_one_witness :
    ((normalizeRows [[(2:ℚ)]]).headD []).sum = 1 :=
  (C6_normalized_rows_sum_one [[2]]
    (by
      intro row hrow
      simp only [List.mem_cons, List.not_mem_nil, or_false] at hrow
      subst hrow
      exact ⟨by intro x hx; simp at hx; subst hx; norm_num,
        2, by simp, by norm_num⟩)
    ((normalizeRows [[(2:ℚ)]]).headD [])
    (by norm_num [normalizeRows])).2

/-- The frontier loop accumulates exactly the succeeded targets, in
order. -/
theorem frontier_foldl_eq_filterMap (solver : ℚ → SolverResult) :
    ∀ (ts : List ℚ) (acc : List (ℚ × ℚ)),
      ts.foldl (fun a t =>
          if (solver t).success then a ++ [(t, (solver t).fn)] else a) acc
        = acc ++ ts.filterMap (fun t =>
            if (solver t).success then some (t, (solver t).fn) else none) := by
  intro ts
  induction ts with
  | nil => intro acc; simp
  | cons t ts ih =>
      intro acc
      by_cases h : (solver t).success <;>
        simp [h, ih, List.filterMap_cons]

theorem linspace_length (a b : ℚ) (n : ℕ) : (linspace a b n).length = n := by
  unfold linspace
  split
  · simp [*]
  · split
    · simp [*]
    · rw [List.length_map, List.length_range]

theorem linspace_getD (a b : ℚ) (n i : ℕ) (hn : 2 ≤ n) (hi : i < n) :
    (linspace a b n).getD i 0 = a + (b - a) * i / ((n : ℚ) - 1) := by
  have h0 : n ≠ 0 := by omega
  have h1 : n ≠ 1 := by omega
  unfold linspace
  rw [if_neg h0, if_neg h1,
    List.getD_eq_getElem _ _ (by rw [List.length_map, List.length_range]; exact hi)]
  rw [List.getElem_map, List.getElem_range]

/-- C7: the efficient-frontier computation evaluates `n_points` evenly
spaced targets from the min to the max return of the Monte Carlo cloud;
the returned frontier is exactly the subsequence of targets where the
solver converged (failed targets are dropped, never recorded), so it may
be shorter than `n_points`, and a per-point failure never aborts the
whole computation (the function is total and continues folding over the
remaining targets). -/
theorem C7_frontier_spacing_and_dropped_points
    (solver : ℚ → SolverResult) (rc : List ℚ) (n : ℕ) :
    (linspace ((rc.min?).getD 0) ((rc.max?).getD 0) n).length = n ∧
    (2 ≤ n →
      (linspace ((rc.min?).getD 0) ((rc.max?).getD 0) n).getD 0 0
          = (rc.min?).getD 0 ∧
      (linspace ((rc.min?).getD 0) ((rc.max?).getD 0) n).getD (n - 1) 0
          = (rc.max?).getD 0 ∧
      ∀ i, i + 1 < n →
        (linspace ((rc.min?).getD 0) ((rc.max?).getD 0) n).getD (i + 1) 0 -
            (linspace ((rc.min?).getD 0) ((rc.max?).getD 0) n).getD i 0
          = ((rc.max?).getD 0 - (rc.min?).getD 0) / ((n : ℚ) - 1)) ∧
    calculateEfficientFrontier solver rc n
      = (linspace ((rc.min?).getD 0) ((rc.max?).getD 0) n).filterMap
          (fun t => if (solver t).success then some (t, (solver t).fn) else none) ∧
    (calculateEfficientFrontier solver rc n).length ≤ n := by
  have hfm : calculateEfficientFrontier solver rc n
      = (linspace ((rc.min?).getD 0) ((rc.max?).getD 0) n).filterMap
          (fun t => if (solver t).success then some (t, (solver t).fn) else none) := by
    unfold calculateEfficientFrontier
    rw [frontier_foldl_eq_filterMap]
    simp
  refine ⟨linspace_length _ _ _, ?_, hfm, ?_⟩
  · intro hn
    have hcast : (2:ℚ) ≤ (n : ℚ) := by exact_mod_cast hn
    have hne : (n : ℚ) - 1 ≠ 0 := by
      intro h
      have : (n : ℚ) = 1 := by linarith
      linarith
    refine ⟨?_, ?_, ?_⟩
    · rw [linspace_getD _ _ _ _ hn (by omega)]
      simp
    · rw [linspace_getD _ _ _ _ hn (by omega)]
      have : ((n - 1 : ℕ) : ℚ) = (n : ℚ) - 1 := by
        have : 1 ≤ n := by omega
        push_cast [Nat.cast_sub this]
        ring
      rw [this, mul_div_assoc, div_self hne]
      ring
    · intro i hi
      rw [linspace_getD _ _ _ _ hn (by omega), linspace_getD _ _ _ _ hn (by omega)]
      push_cast
      field_simp
      ring
  · rw [hfm]
    calc ((linspace ((rc.min?).getD 0) ((rc.max?).getD 0) n).filterMap _).length
        ≤ (linspace ((rc.min?).getD 0) ((rc.max?).getD 0) n).length :=
          List.length_filterMap_le _ _
      _ = n := linspace_length _ _ _

/-- A concrete solver that converges only on part of the target range. -/
def sampleSolver : ℚ → SolverResult := fun t => ⟨decide (t ≤ 1/2), t⟩

/-- C7 witness: the frontier length bound evaluated on a concrete cloud
and solver. -/
theorem C7_frontier_witness :
    (calculateEfficientFrontier sampleSolver [0, 1] 5).length ≤ 5 :=
  (C7_frontier_spacing_and_dropped_points sampleSolver [0, 1] 5).2.2.2

/-- C8: two optimizer constructions from identical input with the same
seed, each immediately followed by `monte_carlo_optimization`, produce
identical result clouds (weights, returns, volatilities and Sharpe ratios
alike).  The second construction re-seeds the process-wide generator,
discarding whatever state the first run left behind, so the draws
coincide. -/
theorem C8_monte_carlo_reproducible
    (rm : RandModel) (sqrt : ℚ → ℚ) (input : ReturnPanel) (rf : ℚ)
    (iterations seed : ℕ) (g0 : GlobalRNG) :
    (monteCarloOptimization rm
        (PortfolioOptimizer.construct input rf iterations seed g0).1 sqrt
        (PortfolioOptimizer.construct input rf iterations seed g0).2).1
      = (monteCarloOptimization rm
          (PortfolioOptimizer.construct input rf iterations seed
            (monteCarloOptimization rm
              (PortfolioOptimizer.construct input rf iterations seed g0).1 sqrt
              (PortfolioOptimizer.construct input rf iterations seed g0).2).2).1
          sqrt
          (PortfolioOptimizer.construct input rf iterations seed
            (monteCarloOptimization rm
              (PortfolioOptimizer.construct input rf iterations seed g0).1 sqrt
              (PortfolioOptimizer.construct input rf iterations seed g0).2).2).2).1 :=
  rfl

/-- C9: a weight vector whose portfolio variance is exactly zero does not
crash the metrics computation: the record is still produced and its Sharpe
ratio is NaN or ±∞ (the IEEE outcome of dividing the excess return by a
zero volatility). -/
theorem C9_zero_volatility_sharpe_degenerate
    (opt : PortfolioOptimizer) (sqrt : ℚ → ℚ) (w : List ℚ)
    (hs : sqrt 0 = 0) (hlen : w.length = opt.n_assets)
    (hq : quadForm opt.cov_matrix w = some 0) :
    ∃ r : MetricsRow,
      calculatePortfolioMetrics opt sqrt [w] "arithmetic" = .ok [r] ∧
        (r.sharpe = .nan ∨ r.sharpe = .posInf ∨ r.sharpe = .negInf) := by
  have hv : npSqrt sqrt (quadForm opt.cov_matrix w) = .finite 0 := by
    rw [hq]
    simp [npSqrt, hs]
  refine ⟨{ ret := toNF ((dotOpt w opt.mean_returns).map (· * 252))
            volatility := .finite 0
            sharpe := NFloat.div
              ((toNF ((dotOpt w opt.mean_returns).map (· * 252))).subQ
                opt.risk_free_rate) (.finite 0) }, ?_, ?_⟩
  · simp [calculatePortfolioMetrics, hlen, hv, Except.map]
  · cases hx : toNF ((dotOpt w opt.mean_returns).map (· * 252)) with
    | finite a =>
        simp only [NFloat.subQ, NFloat.div]
        rcases lt_trichotomy (a - opt.risk_free_rate) 0 with h | h | h
        · right; right
          rw [if_neg (by simp), if_neg (by linarith), if_pos h]
        · left
          rw [if_neg (by simp), if_neg (by linarith), if_neg (by linarith)]
        · right; left
          rw [if_neg (by simp), if_pos h]
    | posInf =>
        simp [NFloat.subQ, NFloat.div]
    | negInf =>
        simp [NFloat.subQ, NFloat.div]
    | nan =>
        simp [NFloat.subQ, NFloat.div]

/-- C9 witness: the one-asset flat panel has an exactly-zero annualized
covariance, and the full-weight portfolio on it gets a degenerate Sharpe
ratio instead of an exception. -/
theorem C9_zero_volatility_witness :
    ∃ r : MetricsRow,
      calculatePortfolioMetrics flatOptimizer id [[1]] "arithmetic" = .ok [r] ∧
        (r.sharpe = .nan ∨ r.sharpe = .posInf ∨ r.sharpe = .negInf) :=
  C9_zero_volatility_sharpe_degenerate flatOptimizer id [1] rfl
    (by norm_num [flatOptimizer, PortfolioOptimizer.init, pivotSymbols, flatPanel,
      uniqueSorted])
    (by norm_num [flatOptimizer, PortfolioOptimizer.init, pivotSymbols, pivotDates,
      pivotTable, pivotTableCell, flatPanel, uniqueSorted, quadForm, dotOpt,
      matrixCol, colCov, listMean, List.range_succ, List.filterMap_cons])

/-! ### Indexed-access helpers for the compounded index series -/

theorem zip_getD_pair (ds : List ℕ) (vs : List ℚ) (i : ℕ)
    (h1 : i < ds.length) (h2 : i < vs.length) :
    (ds.zip vs).getD i (0, 0) = (ds.getD i 0, vs.getD i 0) := by
  rw [List.getD_eq_getElem _ _ (by rw [List.length_zip]; omega),
    List.getD_eq_getElem _ _ h1, List.getD_eq_getElem _ _ h2, List.getElem_zip]

theorem map_mul_getD (l : List ℚ) (c : ℚ) (i : ℕ) (h : i < l.length) :
    (l.map (· * c)).getD i 0 = l.getD i 0 * c := by
  rw [List.getD_eq_getElem _ _ (by rw [List.length_map]; exact h),
    List.getD_eq_getElem _ _ h, List.getElem_map]

theorem map_fn_getD (f : ℕ → ℚ) (ds : List ℕ) (i : ℕ) (h : i < ds.length) :
    (ds.map f).getD i 0 = f (ds.getD i 0) := by
  rw [List.getD_eq_getElem _ _ (by rw [List.length_map]; exact h),
    List.getD_eq_getElem _ _ h, List.getElem_map]

theorem range_map_getD (f : ℕ → ℚ) (k i : ℕ) (h : i < k) :
    ((List.range k).map f).getD i 0 = f i := by
  rw [List.getD_eq_getElem _ _ (by rw [List.length_map, List.length_range]; exact h),
    List.getElem_map, List.getElem_range]

theorem cumprod_getD_zero (l : List ℚ) (h : 0 < l.length) :
    (cumprod l).getD 0 0 = l.getD 0 0 := by
  rw [cumprod, cumprodAux_getD_zero _ _ h, one_mul]

theorem cumprod_getD_succ (l : List ℚ) (i : ℕ) (h : i + 1 < l.length) :
    (cumprod l).getD (i + 1) 0 = (cumprod l).getD i 0 * l.getD (i + 1) 0 :=
  cumprodAux_getD_succ 1 l i h

/-- The date/value series of every builder has one entry per grouped date. -/
theorem index_series_length (ds : List ℕ) (fs : List ℚ) (base : ℚ)
    (hlen : fs.length = ds.length) :
    (ds.zip ((cumprod fs).map (· * base))).length = ds.length := by
  rw [List.length_zip, List.length_map, cumprod_length, hlen, min_self]

/-- Entry `i` of a compounded index series. -/
theorem index_series_getD (ds : List ℕ) (fs : List ℚ) (base : ℚ)
    (hlen : fs.length = ds.length) (i : ℕ) (hi : i < ds.length) :
    (ds.zip ((cumprod fs).map (· * base))).getD i (0, 0)
      = (ds.getD i 0, (cumprod fs).getD i 0 * base) := by
  have hlc : (cumprod fs).length = ds.length := by rw [cumprod_length, hlen]
  rw [zip_getD_pair _ _ _ hi (by rw [List.length_map, hlc]; exact hi),
    map_mul_getD _ _ _ (by rw [hlc]; exact hi)]

/-- The head of a sorted date list bounds every member. -/
theorem sorted_head_le (ds : List ℕ) (hs : List.Sorted (· ≤ ·) ds) (x : ℕ)
    (hx : x ∈ ds) : ds.getD 0 0 ≤ x := by
  cases ds with
  | nil => simp at hx
  | cons d tail =>
      rcases List.mem_cons.mp hx with rfl | h
      · simp
      · simpa using List.rel_of_sorted_cons hs _ h

/-- A one-row panel on which the equal-weighted index starts away from the
base value. -/
def onePanel : ReturnPanel :=
  { cols := ["Date", "Symbol", "Return"], rows := [⟨0, "A", 1/2, 1, 1⟩] }

/-- C2 counterexample: on a panel whose only date has mean return 1/2, the
equal-weighted index value at the first date is base_value × (1 + 1/2) =
3/2, not the claimed base_value = 1 — the `cumprod` includes the first
date's growth factor. -/
theorem C2_first_value_counterexample :
    build_equal_weighted_index (IndexBuilder.init onePanel none) 1
        = .ok [(0, 3/2)] ∧ ((3 : ℚ)/2) ≠ 1 := by
  constructor
  · norm_num [build_equal_weighted_index, IndexBuilder.init, onePanel, groupDates,
      uniqueSorted, returnsAt, listMean, cumprod, cumprodAux]
  · norm_num

/-- C2 (amended): the equal-weighted index satisfies the claimed recurrence
index(t) = index(t-1) × (1 + mean return at date t) for every t > 0, the
output dates start at the earliest date, and the value at the first date is
base_value × (1 + mean return at the first date) — equal to `base_value`
exactly only when that first mean return is zero (the claim's initial
condition is amended accordingly). -/
theorem C2_equal_weighted_recurrence
    (b : IndexBuilder) (base_value : ℚ)
    (hcol : "Return" ∈ b.data.cols) (hrows : b.data.rows ≠ []) :
    ∃ l : List (ℕ × ℚ),
      build_equal_weighted_index b base_value = .ok l ∧
      l ≠ [] ∧
      (l.getD 0 (0, 0)).2
        = base_value * (1 + listMean (returnsAt b.data.rows (l.getD 0 (0, 0)).1)) ∧
      (∀ i, i + 1 < l.length →
        (l.getD (i + 1) (0, 0)).2
          = (l.getD i (0, 0)).2
            * (1 + listMean (returnsAt b.data.rows (l.getD (i + 1) (0, 0)).1))) ∧
      (∀ p ∈ l, (l.getD 0 (0, 0)).1 ≤ p.1) := by
  have hdsne : groupDates b.data.rows ≠ [] :=
    uniqueSorted_ne_nil (fun h => hrows (by simpa using h))
  have hlen0 : 0 < (groupDates b.data.rows).length := List.length_pos.mpr hdsne
  have hlenf : ((groupDates b.data.rows).map
      (fun d => 1 + listMean (returnsAt b.data.rows d))).length
      = (groupDates b.data.rows).length := List.length_map _ _
  refine ⟨(groupDates b.data.rows).zip
      ((cumprod ((groupDates b.data.rows).map
        (fun d => 1 + listMean (returnsAt b.data.rows d)))).map (· * base_value)),
    ?_, ?_, ?_, ?_, ?_⟩
  · rw [build_equal_weighted_index, if_pos hcol]
  · have := index_series_length (groupDates b.data.rows)
      ((groupDates b.data.rows).map (fun d => 1 + listMean (returnsAt b.data.rows d)))
      base_value hlenf
    intro hnil
    rw [hnil] at this
    simp at this
    omega
  · rw [index_series_getD _ _ _ hlenf 0 hlen0,
      cumprod_getD_zero _ (by rw [hlenf]; exact hlen0),
      map_fn_getD _ _ _ hlen0]
    ring
  · intro i hi
    rw [index_series_length _ _ _ hlenf] at hi
    rw [index_series_getD _ _ _ hlenf (i + 1) hi,
      index_series_getD _ _ _ hlenf i (by omega),
      cumprod_getD_succ _ _ (by rw [hlenf]; exact hi),
      map_fn_getD _ _ _ hi]
    ring
  · intro p hp
    rw [index_series_getD _ _ _ hlenf 0 hlen0]
    exact sorted_head_le _ (sorted_uniqueSorted _) _ (List.of_mem_zip hp).1

/-- C2 witness: the amended property instantiated on the concrete sample
panel (two dates, two symbols). -/
theorem C2_equal_weighted_recurrence_witness :
    ∃ l : List (ℕ × ℚ),
      build_equal_weighted_index (IndexBuilder.init samplePanel none) 1 = .ok l ∧
      l ≠ [] ∧
      (l.getD 0 (0, 0)).2
        = 1 * (1 + listMean (returnsAt (IndexBuilder.init samplePanel none).data.rows
            (l.getD 0 (0, 0)).1)) ∧
      (∀ i, i + 1 < l.length →
        (l.getD (i + 1) (0, 0)).2
          = (l.getD i (0, 0)).2
            * (1 + listMean (returnsAt (IndexBuilder.init samplePanel none).data.rows
                (l.getD (i + 1) (0, 0)).1))) ∧
      (∀ p ∈ l, (l.getD 0 (0, 0)).1 ≤ p.1) :=
  C2_equal_weighted_recurrence (IndexBuilder.init samplePanel none) 1
    (by decide) (by decide)

/-! ### Risk-parity weight facts -/

theorem sampleVar_nonneg (xs : List ℚ) (h : 2 ≤ xs.length) : 0 ≤ sampleVar xs := by
  unfold sampleVar
  apply div_nonneg
  · apply List.sum_nonneg
    intro x hx
    simp only [List.mem_map] at hx
    obtain ⟨y, _, rfl⟩ := hx
    positivity
  · have : (2 : ℚ) ≤ (xs.length : ℚ) := by exact_mod_cast h
    linarith

theorem rollingVol_nonneg (sqrt : ℚ → ℚ) (hsq : ∀ q, 0 ≤ q → 0 ≤ sqrt q)
    (col : List (Option ℚ)) (window t : ℕ) :
    0 ≤ rollingVol sqrt col window t := by
  show 0 ≤ if 2 ≤ (windowVals col window t).length then
    sqrt (sampleVar (windowVals col window t)) else 0
  split
  · exact hsq _ (sampleVar_nonneg _ ‹_›)
  · exact le_refl 0

theorem invVol_nonneg (sqrt : ℚ → ℚ) (hsq : ∀ q, 0 ≤ q → 0 ≤ sqrt q)
    (col : List (Option ℚ)) (window t : ℕ) :
    0 ≤ invVol sqrt col window t := by
  show 0 ≤ if rollingVol sqrt col window t = 0 then 0
    else 1 / rollingVol sqrt col window t
  split
  · exact le_refl 0
  · have hv := rollingVol_nonneg sqrt hsq col window t
    have hpos : 0 < rollingVol sqrt col window t := lt_of_le_of_ne hv (Ne.symm ‹_›)
    positivity

theorem invVolRow_nonneg (sqrt : ℚ → ℚ) (hsq : ∀ q, 0 ≤ q → 0 ≤ sqrt q)
    (M : List (List (Option ℚ))) (window t : ℕ) :
    ∀ x ∈ invVolRow sqrt M window t, 0 ≤ x := by
  intro x hx
  simp only [invVolRow, List.mem_map] at hx
  obtain ⟨j, _, rfl⟩ := hx
  exact invVol_nonneg sqrt hsq _ window t

/-- C5: at every date of the risk-parity builder, an asset whose inverse
rolling volatility is zero — in particular one whose volatility was zero or
undefined and was therefore zeroed by the NaN/∞ replacement — receives
weight exactly 0; if every asset's inverse volatility is zero the whole
weight row is 0; and otherwise the weights sum to exactly 1.  (In this
exact-rational embedding the weights are total by construction, so no NaN
or infinite weight can be produced, mirroring the replace/fillna guards of
the source.) -/
theorem C5_risk_parity_weight_policy
    (sqrt : ℚ → ℚ) (hsq : ∀ q, 0 ≤ q → 0 ≤ sqrt q)
    (M : List (List (Option ℚ))) (window t : ℕ) :
    (∀ j, (invVolRow sqrt M window t).getD j 0 = 0 →
        (weightRow sqrt M window t).getD j 0 = 0) ∧
    ((∀ j, (invVolRow sqrt M window t).getD j 0 = 0) →
        ∀ j, (weightRow sqrt M window t).getD j 0 = 0) ∧
    ((∃ j, j < (invVolRow sqrt M window t).length ∧
        (invVolRow sqrt M window t).getD j 0 ≠ 0) →
      (weightRow sqrt M window t).sum = 1) := by
  have hzero : ∀ j, (invVolRow sqrt M window t).getD j 0 = 0 →
      (weightRow sqrt M window t).getD j 0 = 0 := by
    intro j hj
    by_cases hjl : j < (invVolRow sqrt M window t).length
    · have hwl : j < (weightRow sqrt M window t).length := by
        rw [weightRow]
        simpa using hjl
      rw [List.getD_eq_getElem _ _ hjl] at hj
      rw [List.getD_eq_getElem _ _ hwl]
      simp only [weightRow, List.getElem_map]
      rw [hj]
      split
      · rfl
      · exact zero_div _
    · rw [List.getD_eq_default]
      rw [weightRow, List.length_map]
      omega
  refine ⟨hzero, fun h j => hzero j (h j), ?_⟩
  rintro ⟨j, hjl, hj⟩
  have hnn := invVolRow_nonneg sqrt hsq M window t
  have hmem : (invVolRow sqrt M window t).getD j 0 ∈ invVolRow sqrt M window t := by
    rw [List.getD_eq_getElem _ _ hjl]
    exact List.getElem_mem hjl
  have hpos : 0 < (invVolRow sqrt M window t).getD j 0 :=
    lt_of_le_of_ne (hnn _ hmem) (Ne.symm hj)
  have hsum : 0 < (invVolRow sqrt M window t).sum :=
    lt_of_lt_of_le hpos (List.single_le_sum hnn _ hmem)
  rw [weightRow]
  simp only [if_neg hsum.ne']
  rw [sum_map_div]
  exact div_self hsum.ne'

/-- C5 witness: a concrete two-asset, two-date matrix with positive sample
variances; the weight row at the second date sums to 1. -/
theorem C5_risk_parity_weight_policy_witness :
    (weightRow id [[some 0, some 2], [some 2, some 0]] 2 1).sum = 1 :=
  (C5_risk_parity_weight_policy id (fun _ h => h)
      [[some 0, some 2], [some 2, some 0]] 2 1).2.2
    ⟨0, by norm_num [invVolRow, List.range_succ],
      by norm_num [invVolRow, List.range_succ, invVol, rollingVol, windowVals,
        matrixCol, sampleVar, listMean, List.filterMap_cons]⟩

/-! ### Risk-parity first-date facts -/

/-- At the first date every rolling window holds at most one observation,
so the volatility is NaN (filled to 0) and the inverse volatility is 0. -/
theorem invVol_t0 (sqrt : ℚ → ℚ) (col : List (Option ℚ)) (window : ℕ) :
    invVol sqrt col window 0 = 0 := by
  have hlen : (windowVals col window 0).length ≤ 1 := by
    unfold windowVals
    calc (((col.take 1).drop (1 - window)).filterMap id).length
        ≤ ((col.take 1).drop (1 - window)).length := List.length_filterMap_le _ _
      _ ≤ (col.take 1).length := by
          rw [List.length_drop]; omega
      _ ≤ 1 := by
          rw [List.length_take]; omega
  have hvol : rollingVol sqrt col window 0 = 0 := by
    show (if 2 ≤ (windowVals col window 0).length then
      sqrt (sampleVar (windowVals col window 0)) else 0) = 0
    rw [if_neg (by omega)]
  show (if rollingVol sqrt col window 0 = 0 then 0
    else 1 / rollingVol sqrt col window 0) = (0 : ℚ)
  rw [if_pos hvol]

/-- At the first date all risk-parity weights are 0. -/
theorem weightRow_t0 (sqrt : ℚ → ℚ) (M : List (List (Option ℚ))) (window : ℕ) :
    ∀ y ∈ weightRow sqrt M window 0, y = 0 := by
  intro y hy
  simp only [weightRow, List.mem_map] at hy
  obtain ⟨x, hx, rfl⟩ := hy
  have hx0 : x = 0 := by
    simp only [invVolRow, List.mem_map] at hx
    obtain ⟨j, _, rfl⟩ := hx
    exact invVol_t0 sqrt _ window
  rw [hx0]
  split
  · rfl
  · exact zero_div _

/-- The risk-parity weighted return at the first date is 0. -/
theorem riskParity_weighted_return_t0 (sqrt : ℚ → ℚ)
    (M : List (List (Option ℚ))) (window : ℕ) :
    riskParityWeightedReturn sqrt M window 0 = 0 := by
  unfold riskParityWeightedReturn
  apply List.sum_eq_zero
  intro x hx
  simp only [List.mem_filterMap] at hx
  obtain ⟨p, hp, hpx⟩ := hx
  have hp2 : p.2 = 0 := weightRow_t0 sqrt M window _ (List.of_mem_zip hp).2
  rcases hq : p.1 with _ | r
  · rw [hq] at hpx
    simp at hpx
  · rw [hq] at hpx
    simp only [Option.map] at hpx
    rw [← Option.some_inj.mp hpx, hp2, mul_zero]

/-- C10: for every nonempty return panel (with the duplicate-free
(Date, Symbol) pairs `pivot` itself requires), the risk-parity index value
at the first (earliest) date equals `base_value` exactly: a single
observation has an undefined rolling standard deviation, so every asset's
inverse-volatility weight is 0, the weighted return is 0, and the first
compounded factor is 1. -/
theorem C10_risk_parity_first_value
    (b : IndexBuilder) (sqrt : ℚ → ℚ) (base_value : ℚ) (rolling_window : ℕ)
    (hnd : (b.data.rows.map (fun r => (r.date, r.symbol))).Nodup)
    (hrows : b.data.rows ≠ []) :
    ∃ l : List (ℕ × ℚ),
      build_risk_parity_index b sqrt base_value rolling_window = .ok l ∧
      l ≠ [] ∧
      (l.getD 0 (0, 0)).2 = base_value ∧
      (∀ p ∈ l, (l.getD 0 (0, 0)).1 ≤ p.1) := by
  have hdsne : pivotDates b.data.rows ≠ [] :=
    uniqueSorted_ne_nil (fun h => hrows (by simpa using h))
  have hlen0 : 0 < (pivotDates b.data.rows).length := List.length_pos.mpr hdsne
  have hlenf : ((List.range (pivotDates b.data.rows).length).map
      (fun t => 1 + riskParityWeightedReturn sqrt (pivotMatrix b.data.rows)
        rolling_window t)).length = (pivotDates b.data.rows).length := by
    rw [List.length_map, List.length_range]
  refine ⟨(pivotDates b.data.rows).zip
      ((cumprod ((List.range (pivotDates b.data.rows).length).map
        (fun t => 1 + riskParityWeightedReturn sqrt (pivotMatrix b.data.rows)
          rolling_window t))).map (· * base_value)), ?_, ?_, ?_, ?_⟩
  · rw [build_risk_parity_index, if_pos hnd]
  · have := index_series_length (pivotDates b.data.rows) _ base_value hlenf
    intro hnil
    rw [hnil] at this
    simp at this
    omega
  · rw [index_series_getD _ _ _ hlenf 0 hlen0,
      cumprod_getD_zero _ (by rw [hlenf]; exact hlen0),
      range_map_getD _ _ _ hlen0,
      riskParity_weighted_return_t0]
    ring
  · intro p hp
    rw [index_series_getD _ _ _ hlenf 0 hlen0]
    exact sorted_head_le _ (sorted_uniqueSorted _) _ (List.of_mem_zip hp).1

/-- C10 witness: on the concrete sample panel the risk-parity index exists
and starts exactly at base value 1. -/
theorem C10_risk_parity_first_value_witness :
    ∃ l : List (ℕ × ℚ),
      build_risk_parity_index (IndexBuilder.init samplePanel none) id 1 252 = .ok l ∧
      l ≠ [] ∧
      (l.getD 0 (0, 0)).2 = 1 ∧
      (∀ p ∈ l, (l.getD 0 (0, 0)).1 ≤ p.1) :=
  C10_risk_parity_first_value (IndexBuilder.init samplePanel none) id 1 252
    (by decide) (by decide)

end Engine
